import Mathlib

/-!
Verification of the qdrant/postgres reconciliation job (`src/server/src/bin/sync-qdrant.rs`)
and of the `public_page` handler (`src/server/src/handlers/page_handler.rs`).

The reconciliation driver is embedded shallowly: the four collaborators
(`get_qdrant_collections`, `scroll_qdrant_collection_ids`,
`get_pg_point_ids_from_qdrant_point_ids`, `delete_points_from_qdrant`) are modelled as
pure fallible functions gathered in an environment record, and the driver's `main`
is an explicitly fuelled interpreter that records the sequence of collaborator calls
it performs (its trace) together with the run's outcome.
-/

namespace TrieveSync

/-- Point identifiers are `uuid::Uuid` values; only equality is used, so we model
them as naturals. -/
abbrev Uuid := Nat

/-- Collection identifiers are strings (qdrant collection names). -/
abbrev Coll := String

/-- Scroll cursors are strings in the driver (`Option<String>` offsets). -/
abbrev Cursor := String

/-- Collaborator errors (`ServiceError`), modelled as descriptive strings. -/
abbrev Err := String

/-- `uuid::Uuid::nil().to_string()`: the nil-UUID sentinel string that the driver
writes into `offset` before the first scroll call. -/
def nilUuidString : Cursor := "00000000-0000-0000-0000-000000000000"

/-- One collaborator call performed by the driver, as recorded in the run trace. -/
inductive Event where
  | enumerate : Event
  | scan : Coll → Option Cursor → Event
  | oracle : Coll → List Uuid → Event
  | prune : Coll → List Uuid → Event
deriving DecidableEq, Repr

/-- `true` exactly on Pruner (`delete_points_from_qdrant`) call events. -/
def Event.isPrune : Event → Bool
  | .prune _ _ => true
  | _ => false

/-- `true` exactly on Oracle (`get_pg_point_ids_from_qdrant_point_ids`) call events. -/
def Event.isOracle : Event → Bool
  | .oracle _ _ => true
  | _ => false

/-- `true` exactly on Scanner (`scroll_qdrant_collection_ids`) call events. -/
def Event.isScan : Event → Bool
  | .scan _ _ => true
  | _ => false

/-- The collection an event belongs to (`none` for the run-initial enumeration). -/
def eventColl : Event → Option Coll
  | .enumerate => none
  | .scan c _ => some c
  | .oracle c _ => some c
  | .prune c _ => some c

/-- The four collaborators of the driver, as pure fallible functions.
Field names follow the functions imported by `sync-qdrant.rs`. -/
structure SyncEnv where
  get_qdrant_collections : Except Err (List Coll)
  scroll_qdrant_collection_ids :
    Coll → Option Cursor → Option Nat → Except Err (List Uuid × Option Cursor)
  get_pg_point_ids_from_qdrant_point_ids : List Uuid → Except Err (List Uuid)
  delete_points_from_qdrant : List Uuid → Coll → Except Err Unit

/-- The result a collaborator call would produce in `env`: `some e` when the call
fails with error `e`, `none` when it succeeds. -/
def callResult (env : SyncEnv) : Event → Option Err
  | .enumerate =>
    match env.get_qdrant_collections with
    | .error e => some e
    | .ok _ => none
  | .scan c cur =>
    match env.scroll_qdrant_collection_ids c cur (some 1000) with
    | .error e => some e
    | .ok _ => none
  | .oracle _ ids =>
    match env.get_pg_point_ids_from_qdrant_point_ids ids with
    | .error e => some e
    | .ok _ => none
  | .prune c ids =>
    match env.delete_points_from_qdrant ids c with
    | .error e => some e
    | .ok _ => none

/-- How a run (or a portion of one) ends: normal completion, propagation of the
first collaborator error (`main`'s `?` operator), or fuel exhaustion of the
interpreter (the Rust loop has no fuel; `fuelOut` only marks that the model was
not given enough steps). -/
inductive Outcome where
  | ok : Outcome
  | fail : Err → Outcome
  | fuelOut : Outcome
deriving DecidableEq, Repr

/-- The driver's inner `while let Some(cur_offset) = offset` loop for one
collection, returning the trace of collaborator calls and the outcome.
Mirrors `sync-qdrant.rs` lines 41-69: scroll a page, look the page's ids up in
postgres, filter the page to the ids missing from postgres, delete those from
qdrant when the filtered list is non-empty, then advance the offset. -/
def sync_collection_loop (env : SyncEnv) (collection : Coll) :
    Nat → Option Cursor → List Event × Outcome
  | _, none => ([], Outcome.ok)
  | 0, some _ => ([], Outcome.fuelOut)
  | Nat.succ fuel, some cur_offset =>
    match env.scroll_qdrant_collection_ids collection (some cur_offset) (some 1000) with
    | Except.error e => ([Event.scan collection (some cur_offset)], Outcome.fail e)
    | Except.ok (qdrant_point_ids, new_offset) =>
      match env.get_pg_point_ids_from_qdrant_point_ids qdrant_point_ids with
      | Except.error e =>
        ([Event.scan collection (some cur_offset),
          Event.oracle collection qdrant_point_ids], Outcome.fail e)
      | Except.ok pg_point_ids =>
        let qdrant_point_ids_not_in_pg :=
          qdrant_point_ids.filter (fun x => !(pg_point_ids.contains x))
        if qdrant_point_ids_not_in_pg.length > 0 then
          match env.delete_points_from_qdrant qdrant_point_ids_not_in_pg collection with
          | Except.error e =>
            ([Event.scan collection (some cur_offset),
              Event.oracle collection qdrant_point_ids,
              Event.prune collection qdrant_point_ids_not_in_pg], Outcome.fail e)
          | Except.ok _ =>
            let rest := sync_collection_loop env collection fuel new_offset
            (Event.scan collection (some cur_offset) ::
              Event.oracle collection qdrant_point_ids ::
              Event.prune collection qdrant_point_ids_not_in_pg :: rest.1, rest.2)
        else
          let rest := sync_collection_loop env collection fuel new_offset
          (Event.scan collection (some cur_offset) ::
            Event.oracle collection qdrant_point_ids :: rest.1, rest.2)

/-- The driver's outer `for collection in collections` loop: collections are
processed one at a time, each starting from the nil-UUID sentinel offset the
driver itself writes (`let mut offset = Some(uuid::Uuid::nil().to_string())`).
A failing collection aborts the run (`?` propagation). -/
def sync_collections (env : SyncEnv) (fuel : Nat) : List Coll → List Event × Outcome
  | [] => ([], Outcome.ok)
  | collection :: rest =>
    let r := sync_collection_loop env collection fuel (some nilUuidString)
    match r.2 with
    | Outcome.ok =>
      let r2 := sync_collections env fuel rest
      (r.1 ++ r2.1, r2.2)
    | o => (r.1, o)

/-- `main` of `sync-qdrant.rs` (connection setup elided): enumerate the qdrant
collections once, then reconcile them sequentially. -/
def sync_qdrant_main (env : SyncEnv) (fuel : Nat) : List Event × Outcome :=
  match env.get_qdrant_collections with
  | Except.error e => ([Event.enumerate], Outcome.fail e)
  | Except.ok collections =>
    let r := sync_collections env fuel collections
    (Event.enumerate :: r.1, r.2)

/-- The scanner's cursor chain from `cur` for `collection` reaches an absent
next cursor (or a scan error) within `n` scroll calls. This is the "finite
cursor chain / no unbounded concurrent insertion" assumption. -/
def scroll_chain_ends (env : SyncEnv) (collection : Coll) : Nat → Option Cursor → Prop
  | _, none => True
  | 0, some _ => False
  | Nat.succ n, some cur =>
    match env.scroll_qdrant_collection_ids collection (some cur) (some 1000) with
    | Except.error _ => True
    | Except.ok (_, new_offset) => scroll_chain_ends env collection n new_offset

/-- The batch a trace event hands to the Oracle, if it is an Oracle call:
`trace.filterMap oracleBatch` lists the batches a run checks, in the order it
checks them. -/
def oracleBatch : Event → Option (List Uuid)
  | Event.oracle _ ids => some ids
  | _ => none

/-- The batches the Scanner returns for `collection` along its cursor chain
from `cur`, in cursor order, for as long as scrolling succeeds (up to `fuel`
pages): the reference order against which the driver's per-batch processing
order is compared. -/
def scanner_batches (env : SyncEnv) (collection : Coll) :
    Nat → Option Cursor → List (List Uuid)
  | _, none => []
  | 0, some _ => []
  | Nat.succ fuel, some cur =>
    match env.scroll_qdrant_collection_ids collection (some cur) (some 1000) with
    | Except.error _ => []
    | Except.ok (batch, next) => batch :: scanner_batches env collection fuel next

/-- Scenario environment: one collection `C1` whose vector store holds points
`{1, 2, 3}` (A, B, C) in a single page, while postgres holds rows for `{1, 3}`
(A, C). The oracle returns the subset of its input present in postgres. -/
def envOnePage : SyncEnv where
  get_qdrant_collections := Except.ok ["C1"]
  scroll_qdrant_collection_ids := fun _ _ _ => Except.ok ([1, 2, 3], none)
  get_pg_point_ids_from_qdrant_point_ids := fun ids =>
    Except.ok (ids.filter (fun x => x == 1 || x == 3))
  delete_points_from_qdrant := fun _ _ => Except.ok ()

/-- Scenario environment: one collection `C1` whose scan immediately returns an
empty batch and an absent next cursor (empty collection). -/
def envEmptyColl : SyncEnv where
  get_qdrant_collections := Except.ok ["C1"]
  scroll_qdrant_collection_ids := fun _ _ _ => Except.ok ([], none)
  get_pg_point_ids_from_qdrant_point_ids := fun ids => Except.ok ids
  delete_points_from_qdrant := fun _ _ => Except.ok ()

/-- Scenario environment: one collection `C2` scanned in two pages, page 1 =
`{4, 5}` (D, E) with next cursor `p1`, page 2 = `{6}` (F) with absent next
cursor; postgres holds `{5, 6}` (E, F), so `4` (D) is the only orphan. -/
def envTwoPages : SyncEnv where
  get_qdrant_collections := Except.ok ["C2"]
  scroll_qdrant_collection_ids := fun _ cur _ =>
    if cur = some nilUuidString then Except.ok ([4, 5], some "p1")
    else Except.ok ([6], none)
  get_pg_point_ids_from_qdrant_point_ids := fun ids =>
    Except.ok (ids.filter (fun x => x == 5 || x == 6))
  delete_points_from_qdrant := fun _ _ => Except.ok ()

/-- Scenario environment: collection enumeration succeeds with two collections
but every scroll call fails with a network error. -/
def envScrollErr : SyncEnv where
  get_qdrant_collections := Except.ok ["C1", "C9"]
  scroll_qdrant_collection_ids := fun _ _ _ => Except.error "network timeout"
  get_pg_point_ids_from_qdrant_point_ids := fun ids => Except.ok ids
  delete_points_from_qdrant := fun _ _ => Except.ok ()

/-! ### The `public_page` handler (`src/server/src/handlers/page_handler.rs`)

The handler's collaborators (dataset lookup, environment variables, the
minijinja template) are modelled as an environment record; the dataset's
`server_configuration` is carried already parsed, since
`DatasetConfiguration::from_json` lives outside `src/`. -/

/-- `PublicPageTheme` from `page_handler.rs` (serde `light` / `dark`, default
`light`). -/
inductive PublicPageTheme where
  | light : PublicPageTheme
  | dark : PublicPageTheme
deriving DecidableEq, Repr

/-- External payload type (`SearchMethod`, declared outside `src/`); carried
opaquely by the page handler. -/
structure SearchMethod where

/-- External payload type (`ChunkFilter`, declared outside `src/`); carried
opaquely by the page handler. -/
structure ChunkFilter where

/-- External payload type (`SortOptions`, declared outside `src/`); carried
opaquely by the page handler. -/
structure SortOptions where

/-- External payload type (`ScoringOptions`, declared outside `src/`); carried
opaquely by the page handler. -/
structure ScoringOptions where

/-- External payload type (`TypoOptions`, declared outside `src/`); carried
opaquely by the page handler. -/
structure TypoOptions where

/-- `PublicPageSearchOptions` from `page_handler.rs`; the `f32`
`score_threshold` is carried opaquely as a `Float` (never computed with). -/
structure PublicPageSearchOptions where
  search_type : Option SearchMethod
  page : Option Nat
  page_size : Option Nat
  get_total_pages : Option Bool
  filters : Option ChunkFilter
  sort_options : Option SortOptions
  scoring_options : Option ScoringOptions
  score_threshold : Option Float
  slim_chunks : Option Bool
  content_only : Option Bool
  use_quote_negated_terms : Option Bool
  remove_stop_words : Option Bool
  user_id : Option String
  typo_options : Option TypoOptions
  use_autocomplete : Option Bool

/-- `PublicPageParameters` from `page_handler.rs`. -/
structure PublicPageParameters where
  dataset_id : Option Uuid
  base_url : Option String
  api_key : Option String
  analytics : Option Bool
  suggested_queries : Option Bool
  responsive : Option Bool
  chat : Option Bool
  theme : Option PublicPageTheme
  search_options : Option PublicPageSearchOptions
  brand_name : Option String
  brand_logo_img_src_url : Option String
  problem_link : Option String
  accent_color : Option String
  placeholder : Option String
  default_search_queries : Option (List String)
  default_ai_questions : Option (List String)
  default_search_mode : Option String
  use_group_search : Option Bool
  allow_switching_modes : Option Bool
  default_currency : Option String
  currency_position : Option String
  debounce_ms : Option Int

/-- Rust `Default` for `PublicPageParameters`: every field `None`. -/
def PublicPageParameters.default : PublicPageParameters where
  dataset_id := none
  base_url := none
  api_key := none
  analytics := none
  suggested_queries := none
  responsive := none
  chat := none
  theme := none
  search_options := none
  brand_name := none
  brand_logo_img_src_url := none
  problem_link := none
  accent_color := none
  placeholder := none
  default_search_queries := none
  default_ai_questions := none
  default_search_mode := none
  use_group_search := none
  allow_switching_modes := none
  default_currency := none
  currency_position := none
  debounce_ms := none

/-- The `PUBLIC_DATASET` portion of a dataset's configuration, as read by
`public_page` (`enabled`, `api_key`, `extra_params`). -/
structure PublicDatasetConfig where
  enabled : Bool
  api_key : Option String
  extra_params : Option PublicPageParameters

/-- The parsed `DatasetConfiguration`, restricted to the field `public_page`
reads. -/
structure DatasetConfiguration where
  PUBLIC_DATASET : PublicDatasetConfig

/-- A dataset row as returned by `get_dataset_by_id_query`; its
`server_configuration` is carried already parsed (the handler immediately runs
`DatasetConfiguration::from_json` on it). -/
structure Dataset where
  server_configuration : DatasetConfiguration

/-- The minijinja `context!` passed to the `page.html` template render. -/
structure RenderContext where
  logged_in : Bool
  dashboard_url : String
  params : PublicPageParameters

/-- An actix `HttpResponse`: a status code and a body (`finish()` gives an
empty body). -/
structure HttpResponseM where
  status : Nat
  body : String
deriving DecidableEq, Repr

/-- Result of one `public_page` invocation: the response and whether the
`page.html` template was rendered. -/
structure PageResult where
  response : HttpResponseM
  rendered : Bool
deriving DecidableEq, Repr

/-- The collaborators of `public_page`: dataset lookup, the
`BASE_SERVER_URL` / `ADMIN_DASHBOARD_URL` environment, whether a `LoggedUser`
is attached to the request, and the `page.html` template. -/
structure PageEnv where
  get_dataset_by_id_query : Uuid → Except Err Dataset
  base_server_url : String
  admin_dashboard_url : Option String
  logged_in : Bool
  render_page_template : RenderContext → String

/-- `public_page` from `page_handler.rs` lines 181-213: look up the dataset,
parse its configuration, and either render `page.html` with the merged
`PublicPageParameters` (enabled) or answer `403 Forbidden` with an empty body
(disabled). -/
def public_page (env : PageEnv) (dataset_id : Uuid) : Except Err PageResult :=
  match env.get_dataset_by_id_query dataset_id with
  | Except.error e => Except.error e
  | Except.ok dataset =>
    let config := dataset.server_configuration
    let logged_in := env.logged_in
    let dashboard_url := env.admin_dashboard_url.getD "https://dashboard.trieve.ai"
    if config.PUBLIC_DATASET.enabled then
      let extra := config.PUBLIC_DATASET.extra_params.getD PublicPageParameters.default
      let response_body := env.render_page_template
        { logged_in := logged_in
          dashboard_url := dashboard_url
          params := { extra with
            dataset_id := some dataset_id
            base_url := some env.base_server_url
            api_key := some (config.PUBLIC_DATASET.api_key.getD "") } }
      Except.ok { response := { status := 200, body := response_body }, rendered := true }
    else
      Except.ok { response := { status := 403, body := "" }, rendered := false }

/-- The response statuses documented in the `utoipa::path` annotation on
`public_page`: 200, 400 and 404. -/
def public_page_documented_statuses : List Nat := [200, 400, 404]

/-- Concrete environment for `public_page`: a dataset whose configuration has
the public-dataset feature disabled. -/
def envPageDisabled : PageEnv where
  get_dataset_by_id_query := fun _ =>
    Except.ok { server_configuration :=
      { PUBLIC_DATASET := { enabled := false, api_key := none, extra_params := none } } }
  base_server_url := "https://api.example.com"
  admin_dashboard_url := none
  logged_in := false
  render_page_template := fun _ => "rendered page"

/-! ### Theorems -/

/-- The per-collection loop invoked at an absent cursor completes at once with an empty trace. -/
theorem sync_collection_loop_none (env : SyncEnv) (collection : Coll) (fuel : Nat) :
    sync_collection_loop env collection fuel none = ([], Outcome.ok) := by
  cases fuel <;> rfl

-- Lemma: the loop trace at positive fuel starts with the scan event

/-- At positive fuel, the per-collection loop trace starts with the scan of the cursor it was given. -/
theorem sync_collection_loop_head (env : SyncEnv) (collection : Coll) (fuel : Nat)
    (cur : Cursor) :
    ∃ t, (sync_collection_loop env collection (fuel + 1) (some cur)).1
      = Event.scan collection (some cur) :: t := by
  simp only [sync_collection_loop]
  split
  · exact ⟨_, rfl⟩
  · split
    · exact ⟨_, rfl⟩
    · split
      · split
        · exact ⟨_, rfl⟩
        · exact ⟨_, rfl⟩
      · exact ⟨_, rfl⟩

-- Lemma: every event of a per-collection loop trace belongs to that collection

/-- Every event recorded by the per-collection loop belongs to that collection. -/
theorem eventColl_of_mem_loop (env : SyncEnv) (collection : Coll) :
    ∀ (fuel : Nat) (cur : Option Cursor) (e : Event),
      e ∈ (sync_collection_loop env collection fuel cur).1 →
      eventColl e = some collection := by
  intro fuel
  induction fuel with
  | zero =>
    intro cur e h
    cases cur <;> simp [sync_collection_loop] at h
  | succ fuel ih =>
    intro cur e h
    cases cur with
    | none => simp [sync_collection_loop] at h
    | some cur_offset =>
      cases hs : env.scroll_qdrant_collection_ids collection (some cur_offset) (some 1000) with
      | error e2 =>
        simp only [sync_collection_loop, hs, List.mem_singleton] at h
        subst h; rfl
      | ok page =>
        obtain ⟨qids, next⟩ := page
        cases ho : env.get_pg_point_ids_from_qdrant_point_ids qids with
        | error e2 =>
          simp only [sync_collection_loop, hs, ho, List.mem_cons,
            List.mem_singleton, List.not_mem_nil, or_false] at h
          rcases h with h | h <;> (subst h; rfl)
        | ok pg =>
          by_cases hlen : (qids.filter (fun x => !(pg.contains x))).length > 0
          · cases hd : env.delete_points_from_qdrant
                (qids.filter (fun x => !(pg.contains x))) collection with
            | error e2 =>
              simp only [sync_collection_loop, hs, ho, if_pos hlen, hd, List.mem_cons,
                List.not_mem_nil, or_false] at h
              rcases h with h | h | h <;> (subst h; rfl)
            | ok u =>
              simp only [sync_collection_loop, hs, ho, if_pos hlen, hd,
                List.mem_cons] at h
              rcases h with h | h | h | h
              · subst h; rfl
              · subst h; rfl
              · subst h; rfl
              · exact ih next e h
          · simp only [sync_collection_loop, hs, ho, if_neg hlen, List.mem_cons] at h
            rcases h with h | h | h
            · subst h; rfl
            · subst h; rfl
            · exact ih next e h

/-- Every Pruner call recorded by the per-collection loop deletes exactly the non-empty orphan set of some Oracle-checked batch. -/
theorem prune_mem_loop (env : SyncEnv) (collection : Coll) :
    ∀ (fuel : Nat) (cur : Option Cursor) (c : Coll) (ids : List Uuid),
      Event.prune c ids ∈ (sync_collection_loop env collection fuel cur).1 →
      ∃ batch pg_point_ids,
        env.get_pg_point_ids_from_qdrant_point_ids batch = Except.ok pg_point_ids
        ∧ ids = batch.filter (fun x => !(pg_point_ids.contains x))
        ∧ 0 < ids.length := by
  intro fuel
  induction fuel with
  | zero =>
    intro cur c ids h
    cases cur <;> simp [sync_collection_loop] at h
  | succ fuel ih =>
    intro cur c ids h
    cases cur with
    | none => simp [sync_collection_loop] at h
    | some cur_offset =>
      cases hs : env.scroll_qdrant_collection_ids collection (some cur_offset) (some 1000) with
      | error e2 =>
        simp only [sync_collection_loop, hs, List.mem_singleton] at h
        exact absurd h (by simp)
      | ok page =>
        obtain ⟨qids, next⟩ := page
        cases ho : env.get_pg_point_ids_from_qdrant_point_ids qids with
        | error e2 =>
          simp only [sync_collection_loop, hs, ho, List.mem_cons, List.not_mem_nil,
            or_false] at h
          rcases h with h | h <;> simp at h
        | ok pg =>
          by_cases hlen : (qids.filter (fun x => !(pg.contains x))).length > 0
          · cases hd : env.delete_points_from_qdrant
                (qids.filter (fun x => !(pg.contains x))) collection with
            | error e2 =>
              simp only [sync_collection_loop, hs, ho, if_pos hlen, hd, List.mem_cons,
                List.not_mem_nil, or_false] at h
              rcases h with h | h | h
              · simp at h
              · simp at h
              · obtain ⟨hc, hids⟩ := Event.prune.inj h
                exact ⟨qids, pg, ho, hids, by rw [hids]; exact hlen⟩
            | ok u =>
              simp only [sync_collection_loop, hs, ho, if_pos hlen, hd,
                List.mem_cons] at h
              rcases h with h | h | h | h
              · simp at h
              · simp at h
              · obtain ⟨hc, hids⟩ := Event.prune.inj h
                exact ⟨qids, pg, ho, hids, by rw [hids]; exact hlen⟩
              · exact ih next c ids h
          · simp only [sync_collection_loop, hs, ho, if_neg hlen, List.mem_cons] at h
            rcases h with h | h | h
            · simp at h
            · simp at h
            · exact ih next c ids h

/-- If the scanner cursor chain from `cur` ends within `n` steps, the loop does not run out of fuel at any fuel of at least `n`. -/
theorem scroll_chain_terminates (env : SyncEnv) (collection : Coll) :
    ∀ (n fuel : Nat) (cur : Option Cursor),
      scroll_chain_ends env collection n cur → n ≤ fuel →
      (sync_collection_loop env collection fuel cur).2 ≠ Outcome.fuelOut := by
  intro n
  induction n with
  | zero =>
    intro fuel cur hc hle
    cases cur with
    | none => rw [sync_collection_loop_none]; simp
    | some cur_offset => exact absurd hc (by simp [scroll_chain_ends])
  | succ n ih =>
    intro fuel cur hc hle
    cases cur with
    | none => rw [sync_collection_loop_none]; simp
    | some cur_offset =>
      obtain ⟨f, rfl⟩ : ∃ f, fuel = f + 1 := ⟨fuel - 1, by omega⟩
      cases hs : env.scroll_qdrant_collection_ids collection (some cur_offset) (some 1000) with
      | error e =>
        simp [sync_collection_loop, hs]
      | ok page =>
        obtain ⟨qids, next⟩ := page
        have hc2 : scroll_chain_ends env collection n next := by
          simp only [scroll_chain_ends, hs] at hc
          exact hc
        cases ho : env.get_pg_point_ids_from_qdrant_point_ids qids with
        | error e => simp [sync_collection_loop, hs, ho]
        | ok pg =>
          by_cases hlen : (qids.filter (fun x => !(pg.contains x))).length > 0
          · cases hd : env.delete_points_from_qdrant
                (qids.filter (fun x => !(pg.contains x))) collection with
            | error e =>
              simp only [sync_collection_loop, hs, ho, if_pos hlen, hd]
              simp
            | ok u =>
              simp only [sync_collection_loop, hs, ho, if_pos hlen, hd]
              exact ih f next hc2 (by omega)
          · simp only [sync_collection_loop, hs, ho, if_neg hlen]
            exact ih f next hc2 (by omega)

/-- A scan call that succeeds in `env` has no call error. -/
theorem callResult_scan_none {env : SyncEnv} {c : Coll} {cur : Option Cursor}
    {p : List Uuid × Option Cursor}
    (hs : env.scroll_qdrant_collection_ids c cur (some 1000) = Except.ok p) :
    callResult env (Event.scan c cur) = none := by
  simp [callResult, hs]

/-- An oracle call that succeeds in `env` has no call error. -/
theorem callResult_oracle_none {env : SyncEnv} {c : Coll} {ids pg : List Uuid}
    (ho : env.get_pg_point_ids_from_qdrant_point_ids ids = Except.ok pg) :
    callResult env (Event.oracle c ids) = none := by
  simp [callResult, ho]

/-- A prune call that succeeds in `env` has no call error. -/
theorem callResult_prune_none {env : SyncEnv} {c : Coll} {ids : List Uuid} {u : Unit}
    (hd : env.delete_points_from_qdrant ids c = Except.ok u) :
    callResult env (Event.prune c ids) = none := by
  simp [callResult, hd]

/-- A scan call that fails in `env` has that call error. -/
theorem callResult_scan_some {env : SyncEnv} {c : Coll} {cur : Option Cursor} {e : Err}
    (hs : env.scroll_qdrant_collection_ids c cur (some 1000) = Except.error e) :
    callResult env (Event.scan c cur) = some e := by
  simp only [callResult]
  rw [hs]

/-- An oracle call that fails in `env` has that call error. -/
theorem callResult_oracle_some {env : SyncEnv} {c : Coll} {ids : List Uuid} {e : Err}
    (ho : env.get_pg_point_ids_from_qdrant_point_ids ids = Except.error e) :
    callResult env (Event.oracle c ids) = some e := by
  simp only [callResult]
  rw [ho]

/-- A prune call that fails in `env` has that call error. -/
theorem callResult_prune_some {env : SyncEnv} {c : Coll} {ids : List Uuid} {e : Err}
    (hd : env.delete_points_from_qdrant ids c = Except.error e) :
    callResult env (Event.prune c ids) = some e := by
  simp only [callResult]
  rw [hd]

/-- In a per-collection run that does not end in an error, every recorded call succeeds in `env`. -/
theorem loop_nofail (env : SyncEnv) (collection : Coll) :
    ∀ (fuel : Nat) (cur : Option Cursor),
      (∀ e2 : Err, (sync_collection_loop env collection fuel cur).2 ≠ Outcome.fail e2) →
      ∀ ev ∈ (sync_collection_loop env collection fuel cur).1, callResult env ev = none := by
  intro fuel
  induction fuel with
  | zero =>
    intro cur hno ev hev
    cases cur <;> simp [sync_collection_loop] at hev
  | succ fuel ih =>
    intro cur hno ev hev
    cases cur with
    | none => simp [sync_collection_loop] at hev
    | some cur_offset =>
      cases hs : env.scroll_qdrant_collection_ids collection (some cur_offset) (some 1000) with
      | error e2 =>
        simp only [sync_collection_loop, hs] at hno
        exact absurd rfl (hno e2)
      | ok page =>
        obtain ⟨qids, next⟩ := page
        cases ho : env.get_pg_point_ids_from_qdrant_point_ids qids with
        | error e2 =>
          simp only [sync_collection_loop, hs, ho] at hno
          exact absurd rfl (hno e2)
        | ok pg =>
          by_cases hlen : (qids.filter (fun x => !(pg.contains x))).length > 0
          · cases hd : env.delete_points_from_qdrant
                (qids.filter (fun x => !(pg.contains x))) collection with
            | error e2 =>
              simp only [sync_collection_loop, hs, ho, if_pos hlen, hd] at hno
              exact absurd rfl (hno e2)
            | ok u =>
              simp only [sync_collection_loop, hs, ho, if_pos hlen, hd] at hno hev
              simp only [List.mem_cons] at hev
              rcases hev with hev | hev | hev | hev
              · rw [hev]; exact callResult_scan_none hs
              · rw [hev]; exact callResult_oracle_none ho
              · rw [hev]; exact callResult_prune_none hd
              · exact ih next hno ev hev
          · simp only [sync_collection_loop, hs, ho, if_neg hlen] at hno hev
            simp only [List.mem_cons] at hev
            rcases hev with hev | hev | hev
            · rw [hev]; exact callResult_scan_none hs
            · rw [hev]; exact callResult_oracle_none ho
            · exact ih next hno ev hev

/-- A per-collection run that ends in an error ends at its failing call: the trace is the successful calls followed by the single failing one. -/
theorem loop_fail_last (env : SyncEnv) (collection : Coll) :
    ∀ (fuel : Nat) (cur : Option Cursor) (e : Err),
      (sync_collection_loop env collection fuel cur).2 = Outcome.fail e →
      ∃ tr ev, (sync_collection_loop env collection fuel cur).1 = tr ++ [ev]
        ∧ callResult env ev = some e
        ∧ ∀ ev2 ∈ tr, callResult env ev2 = none := by
  intro fuel
  induction fuel with
  | zero =>
    intro cur e h
    cases cur <;> simp [sync_collection_loop] at h
  | succ fuel ih =>
    intro cur e h
    cases cur with
    | none => simp [sync_collection_loop] at h
    | some cur_offset =>
      cases hs : env.scroll_qdrant_collection_ids collection (some cur_offset) (some 1000) with
      | error e2 =>
        simp only [sync_collection_loop, hs] at h ⊢
        obtain rfl : e2 = e := Outcome.fail.inj h
        refine ⟨[], Event.scan collection (some cur_offset), rfl, ?_, by simp⟩
        exact callResult_scan_some hs
      | ok page =>
        obtain ⟨qids, next⟩ := page
        cases ho : env.get_pg_point_ids_from_qdrant_point_ids qids with
        | error e2 =>
          simp only [sync_collection_loop, hs, ho] at h ⊢
          obtain rfl : e2 = e := Outcome.fail.inj h
          refine ⟨[Event.scan collection (some cur_offset)],
            Event.oracle collection qids, rfl, ?_, ?_⟩
          · exact callResult_oracle_some ho
          · intro ev2 hev2
            simp only [List.mem_singleton] at hev2
            rw [hev2]
            exact callResult_scan_none hs
        | ok pg =>
          by_cases hlen : (qids.filter (fun x => !(pg.contains x))).length > 0
          · cases hd : env.delete_points_from_qdrant
                (qids.filter (fun x => !(pg.contains x))) collection with
            | error e2 =>
              simp only [sync_collection_loop, hs, ho, if_pos hlen, hd] at h ⊢
              obtain rfl : e2 = e := Outcome.fail.inj h
              refine ⟨[Event.scan collection (some cur_offset), Event.oracle collection qids],
                Event.prune collection (qids.filter (fun x => !(pg.contains x))),
                rfl, ?_, ?_⟩
              · exact callResult_prune_some hd
              · intro ev2 hev2
                simp only [List.mem_cons, List.not_mem_nil, or_false] at hev2
                rcases hev2 with hev2 | hev2
                · rw [hev2]; exact callResult_scan_none hs
                · rw [hev2]; exact callResult_oracle_none ho
            | ok u =>
              simp only [sync_collection_loop, hs, ho, if_pos hlen, hd] at h ⊢
              obtain ⟨tr, ev, htr, hev, hall⟩ := ih next e h
              refine ⟨Event.scan collection (some cur_offset) :: Event.oracle collection qids ::
                Event.prune collection (qids.filter (fun x => !(pg.contains x))) :: tr,
                ev, by rw [htr]; rfl, hev, ?_⟩
              intro ev2 hev2
              simp only [List.mem_cons] at hev2
              rcases hev2 with hev2 | hev2 | hev2 | hev2
              · rw [hev2]; exact callResult_scan_none hs
              · rw [hev2]; exact callResult_oracle_none ho
              · rw [hev2]; exact callResult_prune_none hd
              · exact hall ev2 hev2
          · simp only [sync_collection_loop, hs, ho, if_neg hlen] at h ⊢
            obtain ⟨tr, ev, htr, hev, hall⟩ := ih next e h
            refine ⟨Event.scan collection (some cur_offset) ::
              Event.oracle collection qids :: tr, ev, by rw [htr]; rfl, hev, ?_⟩
            intro ev2 hev2
            simp only [List.mem_cons] at hev2
            rcases hev2 with hev2 | hev2 | hev2
            · rw [hev2]; exact callResult_scan_none hs
            · rw [hev2]; exact callResult_oracle_none ho
            · exact hall ev2 hev2

/-- A multi-collection run that ends in an error ends at its failing call. -/
theorem collections_fail_last (env : SyncEnv) (fuel : Nat) :
    ∀ (cols : List Coll) (e : Err),
      (sync_collections env fuel cols).2 = Outcome.fail e →
      ∃ tr ev, (sync_collections env fuel cols).1 = tr ++ [ev]
        ∧ callResult env ev = some e
        ∧ ∀ ev2 ∈ tr, callResult env ev2 = none := by
  intro cols
  induction cols with
  | nil =>
    intro e h
    simp [sync_collections] at h
  | cons c rest ih =>
    intro e h
    cases hr : (sync_collection_loop env c fuel (some nilUuidString)).2 with
    | ok =>
      simp only [sync_collections, hr] at h ⊢
      obtain ⟨tr, ev, htr, hev, hall⟩ := ih e h
      refine ⟨(sync_collection_loop env c fuel (some nilUuidString)).1 ++ tr, ev,
        by rw [htr, List.append_assoc], hev, ?_⟩
      intro ev2 hev2
      rcases List.mem_append.mp hev2 with hev2 | hev2
      · exact loop_nofail env c fuel (some nilUuidString)
          (fun e2 h2 => by rw [hr] at h2; cases h2) ev2 hev2
      · exact hall ev2 hev2
    | fail e2 =>
      simp only [sync_collections, hr] at h ⊢
      obtain rfl : e2 = e := Outcome.fail.inj h
      exact loop_fail_last env c fuel (some nilUuidString) e2 hr
    | fuelOut =>
      simp only [sync_collections, hr] at h
      cases h

/-- The per-collection portion of the run records no enumeration event. -/
theorem enumerate_not_mem_collections (env : SyncEnv) (fuel : Nat) :
    ∀ cols : List Coll, Event.enumerate ∉ (sync_collections env fuel cols).1 := by
  intro cols
  induction cols with
  | nil => simp [sync_collections]
  | cons c rest ih =>
    intro hmem
    cases hr : (sync_collection_loop env c fuel (some nilUuidString)).2 with
    | ok =>
      simp only [sync_collections, hr, List.mem_append] at hmem
      rcases hmem with hmem | hmem
      · have h2 := eventColl_of_mem_loop env c fuel (some nilUuidString) Event.enumerate hmem
        simp [eventColl] at h2
      · exact ih hmem
    | fail e2 =>
      simp only [sync_collections, hr] at hmem
      have h2 := eventColl_of_mem_loop env c fuel (some nilUuidString) Event.enumerate hmem
      simp [eventColl] at h2
    | fuelOut =>
      simp only [sync_collections, hr] at hmem
      have h2 := eventColl_of_mem_loop env c fuel (some nilUuidString) Event.enumerate hmem
      simp [eventColl] at h2

/-- The batches a per-collection run hands to the Oracle, in trace order, are
an initial run of the batches the Scanner returns along its cursor chain: the
driver processes batches in exactly the order the Scanner returns them,
stopping early only on an error or on fuel exhaustion of the model. -/
theorem loop_oracle_batches (env : SyncEnv) (collection : Coll) :
    ∀ (fuel : Nat) (cur : Option Cursor),
      ∃ rest, scanner_batches env collection fuel cur
        = ((sync_collection_loop env collection fuel cur).1).filterMap oracleBatch
          ++ rest := by
  intro fuel
  induction fuel with
  | zero =>
    intro cur
    cases cur <;> exact ⟨[], by simp [scanner_batches, sync_collection_loop]⟩
  | succ fuel ih =>
    intro cur
    cases cur with
    | none => exact ⟨[], by simp [scanner_batches, sync_collection_loop]⟩
    | some cur_offset =>
      cases hs : env.scroll_qdrant_collection_ids collection (some cur_offset) (some 1000) with
      | error e =>
        refine ⟨[], ?_⟩
        simp only [scanner_batches, sync_collection_loop, hs, List.filterMap_cons,
          oracleBatch, List.filterMap_nil, List.append_nil]
      | ok page =>
        obtain ⟨qids, next⟩ := page
        cases ho : env.get_pg_point_ids_from_qdrant_point_ids qids with
        | error e =>
          refine ⟨scanner_batches env collection fuel next, ?_⟩
          simp only [scanner_batches, sync_collection_loop, hs, ho, List.filterMap_cons,
            oracleBatch, List.filterMap_nil, List.cons_append, List.nil_append]
        | ok pg =>
          by_cases hlen : (qids.filter (fun x => !(pg.contains x))).length > 0
          · cases hd : env.delete_points_from_qdrant
                (qids.filter (fun x => !(pg.contains x))) collection with
            | error e =>
              refine ⟨scanner_batches env collection fuel next, ?_⟩
              simp only [scanner_batches, sync_collection_loop, hs, ho, if_pos hlen, hd,
                List.filterMap_cons, oracleBatch, List.filterMap_nil, List.cons_append,
                List.nil_append]
            | ok u =>
              obtain ⟨rest, hr⟩ := ih next
              refine ⟨rest, ?_⟩
              simp only [scanner_batches, sync_collection_loop, hs, ho, if_pos hlen, hd,
                List.filterMap_cons, oracleBatch, List.cons_append]
              rw [hr]
          · obtain ⟨rest, hr⟩ := ih next
            refine ⟨rest, ?_⟩
            simp only [scanner_batches, sync_collection_loop, hs, ho, if_neg hlen,
              List.filterMap_cons, oracleBatch, List.cons_append]
            rw [hr]

/-- The multi-collection trace is a concatenation of per-collection segments
following the enumerated order, each segment being exactly its collection’s
per-collection loop trace. -/
theorem collections_blocks (env : SyncEnv) (fuel : Nat) :
    ∀ cols : List Coll,
      ∃ segs : List (List Event),
        (sync_collections env fuel cols).1 = segs.flatten
        ∧ segs.length ≤ cols.length
        ∧ ∀ p ∈ segs.zip cols,
            p.1 = (sync_collection_loop env p.2 fuel (some nilUuidString)).1 := by
  intro cols
  induction cols with
  | nil => exact ⟨[], by simp [sync_collections], by simp, by simp⟩
  | cons c rest ih =>
    cases hr : (sync_collection_loop env c fuel (some nilUuidString)).2 with
    | ok =>
      obtain ⟨segs, hflat, hlen, hblk⟩ := ih
      refine ⟨(sync_collection_loop env c fuel (some nilUuidString)).1 :: segs, ?_, ?_, ?_⟩
      · simp only [sync_collections, hr, List.flatten_cons]
        rw [hflat]
      · simp only [List.length_cons]
        exact Nat.succ_le_succ hlen
      · intro p hp
        rw [List.zip_cons_cons] at hp
        rcases List.mem_cons.mp hp with hp | hp
        · subst hp
          rfl
        · exact hblk p hp
    | fail e2 =>
      refine ⟨[(sync_collection_loop env c fuel (some nilUuidString)).1], ?_, ?_, ?_⟩
      · simp only [sync_collections, hr, List.flatten_cons, List.flatten_nil, List.append_nil]
      · simp only [List.length_cons, List.length_nil]
        omega
      · intro p hp
        rw [List.zip_cons_cons] at hp
        simp only [List.zip_nil_left, List.mem_singleton] at hp
        subst hp
        rfl
    | fuelOut =>
      refine ⟨[(sync_collection_loop env c fuel (some nilUuidString)).1], ?_, ?_, ?_⟩
      · simp only [sync_collections, hr, List.flatten_cons, List.flatten_nil, List.append_nil]
      · simp only [List.length_cons, List.length_nil]
        omega
      · intro p hp
        rw [List.zip_cons_cons] at hp
        simp only [List.zip_nil_left, List.mem_singleton] at hp
        subst hp
        rfl

/-- Every Pruner call recorded by the multi-collection run deletes exactly the non-empty orphan set of some Oracle-checked batch. -/
theorem prune_mem_collections (env : SyncEnv) (fuel : Nat) :
    ∀ (cols : List Coll) (c : Coll) (ids : List Uuid),
      Event.prune c ids ∈ (sync_collections env fuel cols).1 →
      ∃ batch pg_point_ids,
        env.get_pg_point_ids_from_qdrant_point_ids batch = Except.ok pg_point_ids
        ∧ ids = batch.filter (fun x => !(pg_point_ids.contains x))
        ∧ 0 < ids.length := by
  intro cols
  induction cols with
  | nil =>
    intro c ids h
    simp [sync_collections] at h
  | cons c0 rest ih =>
    intro c ids h
    cases hr : (sync_collection_loop env c0 fuel (some nilUuidString)).2 with
    | ok =>
      simp only [sync_collections, hr, List.mem_append] at h
      rcases h with h | h
      · exact prune_mem_loop env c0 fuel (some nilUuidString) c ids h
      · exact ih c ids h
    | fail e2 =>
      simp only [sync_collections, hr] at h
      exact prune_mem_loop env c0 fuel (some nilUuidString) c ids h
    | fuelOut =>
      simp only [sync_collections, hr] at h
      exact prune_mem_loop env c0 fuel (some nilUuidString) c ids h

/-- C2: with collection `C1` holding points `{1, 2, 3}` in the vector store and
postgres holding rows for `{1, 3}`, one reconciliation pass issues delete calls
covering exactly `{2}`: the only Pruner call in the run trace deletes exactly
`[2]`, so `2` is deleted and neither `1` nor `3` appears in any delete call,
and the run completes normally. -/
theorem C2_one_page_deletes_exactly_orphan :
    (sync_qdrant_main envOnePage 2).1.filter Event.isPrune = [Event.prune "C1" [2]]
      ∧ (sync_qdrant_main envOnePage 2).2 = Outcome.ok := by
  decide

/-- C3 counterexample: for the empty collection `C1` (first scan returns an
empty batch and an absent next cursor) the driver nevertheless performs an
Oracle call — `get_pg_point_ids_from_qdrant_point_ids` is invoked with the
empty batch — refuting the claim that no Oracle call is made and that the
Oracle is called only on non-empty batches. -/
theorem C3_empty_batch_oracle_called :
    Event.oracle "C1" [] ∈ (sync_qdrant_main envEmptyColl 1).1
      ∧ (sync_qdrant_main envEmptyColl 1).1
        = [Event.enumerate, Event.scan "C1" (some nilUuidString), Event.oracle "C1" []] := by
  decide

/-- C3 amended: for every collection whose first scan returns an empty batch
and an absent next cursor, the reconciliation of that collection completes
normally after exactly one Scanner call and one Oracle call (made with the
empty batch, unconditionally) and zero deletions: no Pruner call occurs. -/
theorem C3_empty_collection_no_prune (env : SyncEnv) (collection : Coll) (fuel : Nat)
    (pg : List Uuid)
    (hscan : env.scroll_qdrant_collection_ids collection (some nilUuidString) (some 1000)
      = Except.ok ([], none))
    (hpg : env.get_pg_point_ids_from_qdrant_point_ids [] = Except.ok pg) :
    sync_collection_loop env collection (fuel + 1) (some nilUuidString)
      = ([Event.scan collection (some nilUuidString), Event.oracle collection []],
         Outcome.ok) := by
  simp [sync_collection_loop, hscan, hpg]

/-- C3 witness: the amended statement holds of the concrete empty-collection
environment. -/
theorem C3_empty_collection_no_prune_witness :
    sync_collection_loop envEmptyColl "C1" (0 + 1) (some nilUuidString)
      = ([Event.scan "C1" (some nilUuidString), Event.oracle "C1" []], Outcome.ok) :=
  C3_empty_collection_no_prune envEmptyColl "C1" 0 [] rfl rfl

/-- C4 counterexample: the very first Scanner call of the run passes the
nil-UUID sentinel cursor, not an absent cursor: the trace contains a scan event
with cursor `some nilUuidString` and no scan event with cursor `none`, refuting
the claim that the driver's loop starts with cursor `None` and passes no cursor
on the first Scanner call. -/
theorem C4_first_scan_not_none :
    Event.scan "C1" (some nilUuidString) ∈ (sync_qdrant_main envEmptyColl 1).1
      ∧ Event.scan "C1" none ∉ (sync_qdrant_main envEmptyColl 1).1 := by
  decide

/-- C7: with collection `C2` scanned in two pages — page 1 = `{4, 5}` with `4`
an orphan, page 2 = `{6}` with no orphans, then an absent cursor — one
reconciliation pass makes exactly one Pruner call, deleting exactly `[4]`,
performs exactly two Scanner calls, and completes normally. -/
theorem C7_two_pages_single_prune :
    (sync_qdrant_main envTwoPages 3).1.filter Event.isPrune = [Event.prune "C2" [4]]
      ∧ ((sync_qdrant_main envTwoPages 3).1.filter Event.isScan).length = 2
      ∧ (sync_qdrant_main envTwoPages 3).2 = Outcome.ok := by
  decide

/-- C10: for every dataset whose configuration has the public-dataset feature
disabled, `public_page` answers `403 Forbidden` with an empty body and does not
render the page template; 403 is absent from the operation's documented
response statuses (200, 400, 404). -/
theorem C10_public_page_disabled_forbidden (env : PageEnv) (dataset_id : Uuid)
    (dataset : Dataset)
    (hds : env.get_dataset_by_id_query dataset_id = Except.ok dataset)
    (hdis : dataset.server_configuration.PUBLIC_DATASET.enabled = false) :
    public_page env dataset_id
      = Except.ok { response := { status := 403, body := "" }, rendered := false }
      ∧ 403 ∉ public_page_documented_statuses := by
  refine ⟨?_, by decide⟩
  simp [public_page, hds, hdis]

/-- C10 witness: the concrete disabled-dataset environment yields the 403
response. -/
theorem C10_public_page_disabled_forbidden_witness :
    public_page envPageDisabled 7
      = Except.ok { response := { status := 403, body := "" }, rendered := false }
      ∧ 403 ∉ public_page_documented_statuses :=
  C10_public_page_disabled_forbidden envPageDisabled 7
    { server_configuration :=
      { PUBLIC_DATASET := { enabled := false, api_key := none, extra_params := none } } }
    rfl rfl

/-- C1: every Point Identifier passed to a Pruner delete call is the result of
filtering an Oracle-checked batch to the identifiers absent from the Oracle's
returned set: for every prune event in any run trace there are a batch and an
Oracle result such that the deleted list is exactly the batch minus the Oracle
result, so an identifier the Oracle reports as existing in postgres is never
deleted from qdrant. -/
theorem C1_pruned_ids_absent_from_oracle_result (env : SyncEnv) (fuel : Nat)
    (c : Coll) (ids : List Uuid)
    (h : Event.prune c ids ∈ (sync_qdrant_main env fuel).1) :
    ∃ batch pg_point_ids,
      env.get_pg_point_ids_from_qdrant_point_ids batch = Except.ok pg_point_ids
      ∧ ids = batch.filter (fun x => !(pg_point_ids.contains x))
      ∧ ∀ x ∈ ids, pg_point_ids.contains x = false := by
  cases he : env.get_qdrant_collections with
  | error e =>
    simp only [sync_qdrant_main, he, List.mem_singleton] at h
    exact absurd h (by simp)
  | ok cols =>
    simp only [sync_qdrant_main, he, List.mem_cons] at h
    rcases h with h | h
    · exact absurd h (by simp)
    · obtain ⟨batch, pg, hpg, hids, hlen⟩ := prune_mem_collections env fuel cols c ids h
      refine ⟨batch, pg, hpg, hids, ?_⟩
      intro x hx
      rw [hids] at hx
      have hpred := List.of_mem_filter hx
      simpa using hpred

/-- C1 witness: in the one-page scenario run, the prune call deleting `[2]`
indeed stems from an Oracle-checked batch that excludes `2`. -/
theorem C1_pruned_ids_absent_from_oracle_result_witness :
    ∃ batch pg_point_ids,
      envOnePage.get_pg_point_ids_from_qdrant_point_ids batch = Except.ok pg_point_ids
      ∧ [2] = batch.filter (fun x => !(pg_point_ids.contains x))
      ∧ ∀ x ∈ [2], pg_point_ids.contains x = false :=
  C1_pruned_ids_absent_from_oracle_result envOnePage 2 "C1" [2] (by decide)

/-- C4 amended: the driver's loop starts with the cursor already set to the
nil-UUID sentinel — `Some(uuid::Uuid::nil().to_string())` is written in the
driver itself — and the very first Scanner call for each collection passes that
sentinel cursor, not an absent one. -/
theorem C4_first_scan_uses_nil_sentinel (env : SyncEnv) (fuel : Nat)
    (collection : Coll) (rest : List Coll) (hfuel : 0 < fuel) :
    ((sync_collections env fuel (collection :: rest)).1).head?
      = some (Event.scan collection (some nilUuidString)) := by
  obtain ⟨f, rfl⟩ : ∃ f, fuel = f + 1 := ⟨fuel - 1, by omega⟩
  obtain ⟨t, ht⟩ := sync_collection_loop_head env collection f nilUuidString
  cases hr : (sync_collection_loop env collection (f + 1) (some nilUuidString)).2 with
  | ok => simp only [sync_collections, hr, ht, List.cons_append, List.head?_cons]
  | fail e2 => simp only [sync_collections, hr, ht, List.head?_cons]
  | fuelOut => simp only [sync_collections, hr, ht, List.head?_cons]

/-- C4 witness: in the empty-collection scenario the first recorded call is the
scan with the nil-UUID sentinel cursor. -/
theorem C4_first_scan_uses_nil_sentinel_witness :
    ((sync_collections envEmptyColl 1 ["C1"]).1).head?
      = some (Event.scan "C1" (some nilUuidString)) :=
  C4_first_scan_uses_nil_sentinel envEmptyColl 1 "C1" [] (by omega)

/-- C5: the driver skips the Pruner call entirely when the computed Orphan Set
is empty — every Pruner call recorded in any run trace carries a non-empty list
of identifiers. -/
theorem C5_no_empty_prune_call (env : SyncEnv) (fuel : Nat) (c : Coll)
    (ids : List Uuid)
    (h : Event.prune c ids ∈ (sync_qdrant_main env fuel).1) :
    0 < ids.length := by
  cases he : env.get_qdrant_collections with
  | error e =>
    simp only [sync_qdrant_main, he, List.mem_singleton] at h
    exact absurd h (by simp)
  | ok cols =>
    simp only [sync_qdrant_main, he, List.mem_cons] at h
    rcases h with h | h
    · exact absurd h (by simp)
    · obtain ⟨batch, pg, hpg, hids, hlen⟩ := prune_mem_collections env fuel cols c ids h
      exact hlen

/-- C5 witness: the one-page scenario's single prune call has a non-empty id
list. -/
theorem C5_no_empty_prune_call_witness : 0 < ([2] : List Uuid).length :=
  C5_no_empty_prune_call envOnePage 2 "C1" [2] (by decide)

/-- C6: a run that ends in error ends at the first failing collaborator call:
the trace is a sequence of calls that all succeed followed by the single
failing call, after which the driver performs no further calls (no retry, the
remaining batches and collections are abandoned), and the process terminates
with exactly that error. -/
theorem C6_first_error_aborts_run (env : SyncEnv) (fuel : Nat) (e : Err)
    (h : (sync_qdrant_main env fuel).2 = Outcome.fail e) :
    ∃ tr ev, (sync_qdrant_main env fuel).1 = tr ++ [ev]
      ∧ callResult env ev = some e
      ∧ ∀ ev2 ∈ tr, callResult env ev2 = none := by
  cases he : env.get_qdrant_collections with
  | error e2 =>
    simp only [sync_qdrant_main, he] at h ⊢
    obtain rfl : e2 = e := Outcome.fail.inj h
    refine ⟨[], Event.enumerate, rfl, ?_, by simp⟩
    simp only [callResult]
    rw [he]
  | ok cols =>
    simp only [sync_qdrant_main, he] at h ⊢
    obtain ⟨tr, ev, htr, hev, hall⟩ := collections_fail_last env fuel cols e h
    refine ⟨Event.enumerate :: tr, ev, by rw [htr]; rfl, hev, ?_⟩
    intro ev2 hev2
    rcases List.mem_cons.mp hev2 with hev2 | hev2
    · rw [hev2]
      simp only [callResult]
      rw [he]
    · exact hall ev2 hev2

/-- C6 witness: with a scanner that always fails with a network timeout, the
run aborts at that first failing scan and the prior calls all succeeded. -/
theorem C6_first_error_aborts_run_witness :
    ∃ tr ev, (sync_qdrant_main envScrollErr 1).1 = tr ++ [ev]
      ∧ callResult envScrollErr ev = some "network timeout"
      ∧ ∀ ev2 ∈ tr, callResult envScrollErr ev2 = none :=
  C6_first_error_aborts_run envScrollErr 1 "network timeout" (by decide)

/-- C8: if the scanner's cursor chain from the sentinel is finite (it reaches
an absent next cursor within `n` calls), the driver's per-collection loop
terminates — it never runs out of any fuel of at least `n` — and a collection
whose cursor is absent is DONE at once with no further calls. -/
theorem C8_finite_cursor_chain_terminates (env : SyncEnv) (collection : Coll)
    (n fuel : Nat)
    (hchain : scroll_chain_ends env collection n (some nilUuidString))
    (hfuel : n ≤ fuel) :
    (sync_collection_loop env collection fuel (some nilUuidString)).2 ≠ Outcome.fuelOut
      ∧ sync_collection_loop env collection fuel none = ([], Outcome.ok) :=
  ⟨scroll_chain_terminates env collection n fuel (some nilUuidString) hchain hfuel,
   sync_collection_loop_none env collection fuel⟩

/-- C8 witness: the empty-collection scenario's cursor chain ends after one
scan and the loop terminates at fuel 1. -/
theorem C8_finite_cursor_chain_terminates_witness :
    (sync_collection_loop envEmptyColl "C1" 1 (some nilUuidString)).2 ≠ Outcome.fuelOut
      ∧ sync_collection_loop envEmptyColl "C1" 1 none = ([], Outcome.ok) :=
  C8_finite_cursor_chain_terminates envEmptyColl "C1" 1 1
    (by simp [scroll_chain_ends, envEmptyColl]) (by omega)

/-- C9: when collection enumeration succeeds with `cols`, the run trace is the
single enumeration event — performed first and never repeated — followed by a
concatenation of per-collection segments in the enumerated order, each segment
containing only calls of its own collection: collections are processed
sequentially with no interleaving. Moreover, within each collection's segment
the batches handed to the Oracle, in trace order, are an initial run of the
batches the Scanner returns along its cursor chain from the sentinel: batches
are processed in exactly the order the Scanner returns them. -/
theorem C9_single_enumeration_sequential_collections (env : SyncEnv) (fuel : Nat)
    (cols : List Coll)
    (h : env.get_qdrant_collections = Except.ok cols) :
    ∃ segs : List (List Event),
      (sync_qdrant_main env fuel).1 = Event.enumerate :: segs.flatten
      ∧ segs.length ≤ cols.length
      ∧ (∀ p ∈ segs.zip cols, ∀ e ∈ p.1, eventColl e = some p.2)
      ∧ (∀ p ∈ segs.zip cols, ∃ rest,
          scanner_batches env p.2 fuel (some nilUuidString)
            = p.1.filterMap oracleBatch ++ rest)
      ∧ Event.enumerate ∉ segs.flatten := by
  obtain ⟨segs, hflat, hlen, hblk⟩ := collections_blocks env fuel cols
  refine ⟨segs, ?_, hlen, ?_, ?_, ?_⟩
  · simp only [sync_qdrant_main, h]
    rw [hflat]
  · intro p hp e he
    rw [hblk p hp] at he
    exact eventColl_of_mem_loop env p.2 fuel (some nilUuidString) e he
  · intro p hp
    obtain ⟨rest, hr⟩ := loop_oracle_batches env p.2 fuel (some nilUuidString)
    refine ⟨rest, ?_⟩
    rw [hblk p hp]
    exact hr
  · rw [← hflat]
    exact enumerate_not_mem_collections env fuel cols

/-- C9 witness: the one-page scenario run decomposes as the enumeration event
followed by the single segment of collection `C1`, whose checked batches follow
the scanner's order. -/
theorem C9_single_enumeration_sequential_collections_witness :
    ∃ segs : List (List Event),
      (sync_qdrant_main envOnePage 2).1 = Event.enumerate :: segs.flatten
      ∧ segs.length ≤ (["C1"] : List Coll).length
      ∧ (∀ p ∈ segs.zip (["C1"] : List Coll), ∀ e ∈ p.1, eventColl e = some p.2)
      ∧ (∀ p ∈ segs.zip (["C1"] : List Coll), ∃ rest,
          scanner_batches envOnePage p.2 2 (some nilUuidString)
            = p.1.filterMap oracleBatch ++ rest)
      ∧ Event.enumerate ∉ segs.flatten :=
  C9_single_enumeration_sequential_collections envOnePage 2 ["C1"] rfl

end TrieveSync
